import Mathlib

/-!
Folder pagination (package `folders`)

A shallow embedding of `folders/types.go`, `folders/folders.go` and
`folders/folders_pagination.go`, followed by theorems about the embedded
functions.

Conventions of the embedding

* A Go pointer `*T` is an `Option T`; `none` is the nil pointer.
* A Go slice `[]T` is a `Slice T`: either the nil slice or a list of elements.
* A Go `error` is an `Option GoError`; `none` is the nil error.
* A Go `int` is an `Int` in the range of a 64-bit two's complement word;
  every addition of the source is followed by `wrapInt`.
* A Go function returning `(r, err)` returns `Except Fault (r × Option GoError)`:
  `Except.error` is a run-time fault of the Go program (nil dereference,
  index out of range) and `Except.ok` is a normal return of the pair.
* What the source files do not fix is a parameter: the slice returned by
  `GetSampleData()` (`sampleData`) and the meaning of a range variable, which
  depends on the language version of the module (`LoopVar`).
-/

namespace folders

/-! ## Values of the Go runtime -/

/-- A `uuid.UUID` of `github.com/gofrs/uuid`: a value compared with `==`. -/
structure UUID where
  val : Nat
deriving DecidableEq, Repr

/-- A Go `error` value; `fmt.Errorf` with a constant format builds one from its text. -/
structure GoError where
  msg : String
deriving DecidableEq, Repr

/-- The call `fmt.Errorf(msg)` for a format without verbs. -/
def fmtErrorf (msg : String) : GoError := ⟨msg⟩

/-- Run-time faults of a Go program, and the exhaustion of the budget of loop
iterations that the embedding gives to a `for` loop. -/
inductive Fault where
  | nilDereference
  | indexOutOfRange
  | outOfFuel
deriving DecidableEq, Repr

/-- Largest value of a Go `int` on a 64-bit platform. -/
def maxInt : Int := 9223372036854775807

/-- Smallest value of a Go `int` on a 64-bit platform. -/
def minInt : Int := -9223372036854775808

/-- Reduction of a mathematical integer to the 64-bit two's complement range:
what the Go `int` holds after an operation whose exact result is `x`. -/
def wrapInt (x : Int) : Int :=
  (x + 9223372036854775808) % 18446744073709551616 - 9223372036854775808

/-- A Go slice: the nil slice, or a slice over the listed elements. -/
inductive Slice (α : Type) where
  | null : Slice α
  | of (elems : List α) : Slice α
deriving DecidableEq, Repr

namespace Slice

variable {α : Type}

/-- The elements of a slice in order; the nil slice has none. -/
def toList : Slice α → List α
  | null => []
  | of xs => xs

/-- Go `len(s)`. -/
def len (s : Slice α) : Int := (s.toList.length : Int)

/-- Go `append(s, x)`: the result is never the nil slice. -/
def append (s : Slice α) (x : α) : Slice α := of (s.toList ++ [x])

/-- The slice with the same nil-ness and `f` applied to every element. -/
def map {β : Type} (f : α → β) : Slice α → Slice β
  | null => null
  | of xs => of (xs.map f)

/-- Go `s[i]`: faults when `i` is not in `[0, len(s))`. -/
def index (s : Slice α) (i : Int) : Except Fault α :=
  if i < 0 then Except.error Fault.indexOutOfRange
  else
    match s.toList[i.toNat]? with
    | some x => Except.ok x
    | none => Except.error Fault.indexOutOfRange

end Slice

/-! ## `folders/types.go` -/

/-- Modelled from the spec: the `Folder` struct, whose declaration is not among
the source files: identity `Id`, display string `Name`, owning organisation `OrgId`. -/
structure Folder where
  Id : UUID
  Name : String
  OrgId : UUID
deriving DecidableEq, Repr

/-- Go `p.f` on a `*Folder`: faults on the nil pointer. -/
def deref (p : Option Folder) : Except Fault Folder :=
  match p with
  | some f => Except.ok f
  | none => Except.error Fault.nilDereference

structure FetchFolderRequest where
  OrgID : UUID
deriving DecidableEq, Repr

structure FetchFolderResponse where
  Folders : Slice (Option Folder)
deriving DecidableEq, Repr

/-- The interface `Db`: its one method, returning a slice and an error. -/
structure Db where
  FetchAllFoldersByOrgID : UUID → Slice (Option Folder) × Option GoError

structure FetchFolderPaginatedRequest where
  OrgID : UUID
  Size : Int
  StartingAt : Option UUID
deriving DecidableEq, Repr

structure FetchFolderPaginatedResponse where
  Folders : Slice (Option Folder)
  Next : Option UUID
deriving DecidableEq, Repr

/-! ## `folders/folders.go` -/

/-- The function `GetAllFoldersImproved`. -/
def GetAllFoldersImproved (req : Option FetchFolderRequest) (db : Db) :
    Except Fault (Option FetchFolderResponse × Option GoError) :=
  match req with
  | none => Except.ok (none, some (fmtErrorf "request cannot be nil"))
  | some r =>
    match db.FetchAllFoldersByOrgID r.OrgID with
    | (_, some err) => Except.ok (none, some err)
    | (folders, none) => Except.ok (some ⟨folders⟩, none)

/-- The loop `for _, folder := range folders` of `FetchAllFoldersByOrgID` over the
sample folders not yet visited, with `resFolder` as built so far. -/
def fetchLoop (orgID : UUID) :
    List (Option Folder) → Slice (Option Folder) → Except Fault (Slice (Option Folder))
  | [], resFolder => Except.ok resFolder
  | p :: rest, resFolder =>
    match deref p with
    | Except.error e => Except.error e
    | Except.ok folder =>
      if folder.OrgId = orgID then fetchLoop orgID rest (resFolder.append p)
      else fetchLoop orgID rest resFolder

/-- The function `FetchAllFoldersByOrgID`. The slice returned by `GetSampleData()`,
whose code is not among the source files, is the parameter `sampleData`. -/
def FetchAllFoldersByOrgID (sampleData : Slice (Option Folder)) (orgID : UUID) :
    Except Fault (Slice (Option Folder) × Option GoError) :=
  match fetchLoop orgID sampleData.toList (Slice.of []) with
  | Except.error e => Except.error e
  | Except.ok resFolder => Except.ok (resFolder, none)

/-- Which variable a `for ... range` statement declares: one for each iteration
(language version go1.22 and later) or one for the whole loop (before go1.22). The
language version is set by the `go` line of `go.mod`, which is not among the source
files. -/
inductive LoopVar where
  | perIteration
  | perLoop
deriving DecidableEq, Repr

/-- The loop `for _, v := range r { f = append(f, *v) }` of `GetAllFolders`. -/
def copyLoop : List (Option Folder) → Slice Folder → Except Fault (Slice Folder)
  | [], f => Except.ok f
  | v :: rest, f =>
    match deref v with
    | Except.error e => Except.error e
    | Except.ok x => copyLoop rest (f.append x)

/-- The loop `for _, v1 := range f { fp = append(fp, &v1) }` of `GetAllFolders`.
`cells` holds the instances of the variable `v1` declared so far, and a pointer `&v1`
is the position of its instance in `cells`. With one variable for each iteration every
iteration adds an instance; with one variable for the loop every iteration assigns to
the only instance. -/
def addrLoop (sem : LoopVar) : List Folder → List Folder → Slice Nat → List Folder × Slice Nat
  | [], cells, fp => (cells, fp)
  | x :: rest, cells, fp =>
    match sem with
    | LoopVar.perIteration => addrLoop sem rest (cells ++ [x]) (fp.append cells.length)
    | LoopVar.perLoop => addrLoop sem rest [x] (fp.append 0)

/-- The function `GetAllFolders`, for the loop variables `sem` and the sample data
`sampleData`. The pointers of the response are given by the folders they point to
when the function returns. -/
def GetAllFolders (sem : LoopVar) (sampleData : Slice (Option Folder))
    (req : Option FetchFolderRequest) :
    Except Fault (Option FetchFolderResponse × Option GoError) :=
  match req with
  | none => Except.error Fault.nilDereference
  | some r =>
    match FetchAllFoldersByOrgID sampleData r.OrgID with
    | Except.error e => Except.error e
    | Except.ok (rs, _) =>
      match copyLoop rs.toList (Slice.of []) with
      | Except.error e => Except.error e
      | Except.ok f =>
        match addrLoop sem f.toList [] Slice.null with
        | (cells, fp) => Except.ok (some ⟨fp.map (fun a => cells[a]?)⟩, none)

/-! ## `folders/folders_pagination.go` -/

/-- The `for i, folder := range folders` loop of `getStartingAtIndex`, entered
at index `i` with the elements not yet visited; after the loop the function
returns `0` and the error. -/
def rangeLoop (startingAt : UUID) : List (Option Folder) → Int → Except Fault (Int × Option GoError)
  | [], _ =>
    Except.ok (0, some (fmtErrorf "request StartingAt does not refer to a valid Folder"))
  | p :: rest, i =>
    match deref p with
    | Except.error e => Except.error e
    | Except.ok folder =>
      if folder.Id = startingAt then Except.ok (i, none)
      else rangeLoop startingAt rest (wrapInt (i + 1))

/-- The function `getStartingAtIndex`. -/
def getStartingAtIndex (folders : Slice (Option Folder)) (startingAt : Option UUID) :
    Except Fault (Int × Option GoError) :=
  match startingAt with
  | none => Except.ok (0, none)
  | some c => rangeLoop c folders.toList 0

/-- The loop `for i < min(len(folders), startingAtIndex+req.Size)` of
`GetAllFoldersPaginated`, with `bound` the value of the `min` (it does not
change during the loop), run for at most `fuel` iterations from the state
`(i, paginatedFolders)`; it returns the state in which the loop is left. -/
def pageLoop (folders : Slice (Option Folder)) (bound : Int) :
    Nat → Int → Slice (Option Folder) → Except Fault (Int × Slice (Option Folder))
  | 0, i, paginatedFolders =>
    if i < bound then Except.error Fault.outOfFuel else Except.ok (i, paginatedFolders)
  | fuel + 1, i, paginatedFolders =>
    if i < bound then
      match folders.index i with
      | Except.error e => Except.error e
      | Except.ok p => pageLoop folders bound fuel (wrapInt (i + 1)) (paginatedFolders.append p)
    else Except.ok (i, paginatedFolders)

/-- The function `GetAllFoldersPaginated`. The loop gets a budget of
`len(folders)` iterations. -/
def GetAllFoldersPaginated (req : Option FetchFolderPaginatedRequest) (db : Db) :
    Except Fault (Option FetchFolderPaginatedResponse × Option GoError) :=
  match req with
  | none => Except.ok (none, some (fmtErrorf "request cannot be nil"))
  | some r =>
    match db.FetchAllFoldersByOrgID r.OrgID with
    | (_, some err) => Except.ok (none, some err)
    | (folders, none) =>
      match getStartingAtIndex folders r.StartingAt with
      | Except.error e => Except.error e
      | Except.ok (_, some err) => Except.ok (none, some err)
      | Except.ok (startingAtIndex, none) =>
        match pageLoop folders (min folders.len (wrapInt (startingAtIndex + r.Size)))
            folders.toList.length startingAtIndex (Slice.of []) with
        | Except.error e => Except.error e
        | Except.ok (i, paginatedFolders) =>
          if i ≥ folders.len then
            Except.ok (some ⟨paginatedFolders, none⟩, none)
          else
            match folders.index i with
            | Except.error e => Except.error e
            | Except.ok p =>
              match deref p with
              | Except.error e => Except.error e
              | Except.ok folder => Except.ok (some ⟨paginatedFolders, some folder.Id⟩, none)

/-! ## `folders/folders_test.go` -/

/-- The test double `mockDb`: it returns `(nil, dbError)` when `dbError` is set
and `(mockData, nil)` otherwise. -/
def mockDb (mockData : Slice (Option Folder)) (dbError : Option GoError) : Db :=
  ⟨fun _ =>
    match dbError with
    | some e => (Slice.null, some e)
    | none => (mockData, none)⟩

/-- A folder of the tests: identifier `n`, name `name`, zero organisation. -/
def mkFolder (n : Nat) (name : String) : Folder := ⟨⟨n⟩, name, ⟨0⟩⟩

/-- The slice of pointers to the given folders. -/
def sliceOf (fs : List Folder) : Slice (Option Folder) := Slice.of (fs.map some)


/-! ## Notions used to state the theorems -/

/-- Position of the first folder of `fs` whose `Id` is `c`, or `fs.length` when there is none. -/
def firstIndex (fs : List Folder) (c : UUID) : Nat :=
  fs.findIdx (fun f => decide (f.Id = c))

/-- The three folders of the tests, with identifiers 1, 2 and 3. -/
def threeFolders : List Folder := [mkFolder 1 "1", mkFolder 2 "2", mkFolder 3 "3"]

/-- A client following the cursor chain, as the tests do by hand: it calls
`GetAllFoldersPaginated` with the given `StartingAt` and, as long as the response
carries a `Next`, calls again with `StartingAt` set to it, for at most `calls` calls.
The result is the pages received, in order, and whether the last response had no
`Next` (the chain has ended); it is `none` when a call returned an error or faulted. -/
def followChain (db : Db) (orgID : UUID) (size : Int) :
    Nat → Option UUID → Option (List (Slice (Option Folder)) × Bool)
  | 0, _ => some ([], false)
  | calls + 1, startingAt =>
    match GetAllFoldersPaginated (some ⟨orgID, size, startingAt⟩) db with
    | Except.ok (some resp, none) =>
      match resp.Next with
      | none => some ([resp.Folders], true)
      | some next =>
        match followChain db orgID size calls (some next) with
        | some (pages, ended) => some (resp.Folders :: pages, ended)
        | none => none
    | _ => none

/-- Four folders in which the first and the third share the identifier 1:
identifiers 1, 2, 1, 3. -/
def repeatedIdFolders : List Folder :=
  [mkFolder 1 "A", mkFolder 2 "B", mkFolder 1 "A2", mkFolder 3 "C"]

/-- Number of calls of the cursor chain from index `s` on a snapshot of length `L`
with pages of `n` folders: `⌈(L - s) / n⌉`, and one call when `s` is at the end. -/
def chainCalls (L s n : Nat) : Nat :=
  if s < L then (L - s + n - 1) / n else 1

/-!
Theorems about the embedded functions.

Throughout, a collection snapshot is a list `fs : List Folder`. The slice `sl` that
the provider returns for it holds non-nil pointers to these folders, in order
(`sl.toList = fs.map some`; `sl` may be the nil slice when `fs` is empty), and its
length is an `int` (`fs.length ≤ maxInt`), as for every Go slice.
-/

/-! ## Arithmetic of the machine integers -/

theorem wrapInt_of_range (x : Int) (hlo : minInt ≤ x) (hhi : x ≤ maxInt) : wrapInt x = x := by
  unfold wrapInt
  unfold minInt at hlo
  unfold maxInt at hhi
  omega

theorem wrapInt_overflow (x : Int) (hlo : maxInt < x) (hhi : x ≤ 2 * maxInt + 1) :
    wrapInt x = x - 18446744073709551616 := by
  unfold wrapInt
  unfold maxInt at hlo hhi
  omega

/-! ## Reading a snapshot of non-nil folders -/

theorem Slice.index_snapshot (sl : Slice (Option Folder)) (fs : List Folder)
    (hsnap : sl.toList = fs.map some) (n : Nat) (hn : n < fs.length) :
    sl.index (n : Int) = Except.ok (some fs[n]) := by
  unfold Slice.index
  have h0 : ¬ ((n : Int) < 0) := by omega
  simp only [h0, if_false, Int.toNat_ofNat, hsnap]
  simp [List.getElem?_map, List.getElem?_eq_getElem hn]

theorem Slice.len_eq (sl : Slice (Option Folder)) (fs : List Folder)
    (hsnap : sl.toList = fs.map some) : sl.len = (fs.length : Int) := by
  simp [Slice.len, hsnap]

/-! ## Cursor resolution on a snapshot of non-nil folders -/

theorem firstIndex_nil (c : UUID) : firstIndex [] c = 0 := rfl

theorem firstIndex_cons (f : Folder) (fs : List Folder) (c : UUID) :
    firstIndex (f :: fs) c = if f.Id = c then 0 else firstIndex fs c + 1 := by
  unfold firstIndex
  rw [List.findIdx_cons]
  by_cases h : f.Id = c <;> simp [h]

theorem firstIndex_le (fs : List Folder) (c : UUID) : firstIndex fs c ≤ fs.length :=
  List.findIdx_le_length _

theorem firstIndex_lt_iff (fs : List Folder) (c : UUID) :
    firstIndex fs c < fs.length ↔ ∃ f ∈ fs, f.Id = c := by
  unfold firstIndex
  rw [List.findIdx_lt_length]
  simp

theorem firstIndex_get (fs : List Folder) (c : UUID) (h : firstIndex fs c < fs.length) :
    (fs.get ⟨firstIndex fs c, h⟩).Id = c := by
  have := List.findIdx_getElem (w := h)
  simpa using this

theorem rangeLoop_snapshot (c : UUID) (fs : List Folder) (k : Int)
    (hk0 : 0 ≤ k) (hk : k + fs.length ≤ maxInt) :
    rangeLoop c (fs.map some) k =
      if firstIndex fs c < fs.length then Except.ok (k + (firstIndex fs c : Int), none)
      else Except.ok (0, some (fmtErrorf "request StartingAt does not refer to a valid Folder")) := by
  induction fs generalizing k with
  | nil => simp [rangeLoop, firstIndex_nil]
  | cons f rest ih =>
    simp only [List.map_cons, rangeLoop, deref, firstIndex_cons, List.length_cons]
    by_cases h : f.Id = c
    · simp [h]
    · have hw : wrapInt (k + 1) = k + 1 := by
        apply wrapInt_of_range
        · unfold minInt; omega
        · simp only [List.length_cons] at hk; push_cast at hk; omega
      simp only [h, if_false, hw]
      rw [ih (k + 1) (by omega) (by simp only [List.length_cons] at hk; push_cast at hk; omega)]
      by_cases hlt : firstIndex rest c < rest.length
      · simp [hlt]; omega
      · simp [hlt]

/-- What `getStartingAtIndex` returns on a snapshot of non-nil folders. -/
theorem getStartingAtIndex_snapshot (sl : Slice (Option Folder)) (fs : List Folder)
    (hsnap : sl.toList = fs.map some) (hlen : (fs.length : Int) ≤ maxInt) (st : Option UUID) :
    getStartingAtIndex sl st =
      match st with
      | none => Except.ok (0, none)
      | some c =>
        if firstIndex fs c < fs.length then Except.ok ((firstIndex fs c : Int), none)
        else Except.ok (0, some (fmtErrorf "request StartingAt does not refer to a valid Folder")) := by
  cases st with
  | none => rfl
  | some c =>
    simp only [getStartingAtIndex, hsnap]
    rw [rangeLoop_snapshot c fs 0 (le_refl _) (by omega)]
    simp

/-! ## The page loop on a snapshot of non-nil folders -/

theorem take_drop_step (fs : List Folder) (n k : Nat) (hn : n < fs.length) :
    (fs.drop n).take (k + 1) = fs[n] :: (fs.drop (n + 1)).take k := by
  rw [List.drop_eq_getElem_cons hn, List.take_succ_cons]

theorem pageLoop_snapshot (sl : Slice (Option Folder)) (fs : List Folder)
    (hsnap : sl.toList = fs.map some) (hlen : (fs.length : Int) ≤ maxInt)
    (bound : Int) (hb : bound ≤ (fs.length : Int)) :
    ∀ (fuel n : Nat) (xs : List (Option Folder)), (bound - (n : Int)).toNat ≤ fuel →
      pageLoop sl bound fuel (n : Int) (Slice.of xs) =
        Except.ok (max (n : Int) bound,
          Slice.of (xs ++ ((fs.drop n).take (bound - (n : Int)).toNat).map some)) := by
  intro fuel
  induction fuel with
  | zero =>
    intro n xs hfuel
    have hle : bound ≤ (n : Int) := by omega
    have hnot : ¬ ((n : Int) < bound) := by omega
    have h0 : (bound - (n : Int)).toNat = 0 := by omega
    simp [pageLoop, hnot, h0, max_eq_left hle]
  | succ fuel ih =>
    intro n xs hfuel
    by_cases hlt : (n : Int) < bound
    · have hn : n < fs.length := by omega
      have hw : wrapInt ((n : Int) + 1) = ((n + 1 : Nat) : Int) := by
        rw [wrapInt_of_range]
        · push_cast; rfl
        · unfold minInt; omega
        · omega
      have hcnt : (bound - (n : Int)).toNat = (bound - ((n + 1 : Nat) : Int)).toNat + 1 := by
        push_cast; omega
      simp only [pageLoop, hlt, if_true, Slice.index_snapshot sl fs hsnap n hn, hw,
        Slice.append, Slice.toList]
      rw [ih (n + 1) (xs ++ [some fs[n]]) (by push_cast; omega)]
      have hmax : max ((n + 1 : Nat) : Int) bound = max (n : Int) bound := by
        rw [max_eq_right (by push_cast; omega), max_eq_right (by omega)]
      rw [hmax, hcnt, take_drop_step fs n _ hn, List.map_cons, List.append_assoc]
      rfl
    · have hle : bound ≤ (n : Int) := by omega
      have h0 : (bound - (n : Int)).toNat = 0 := by omega
      simp [pageLoop, hlt, h0, max_eq_left hle]

/-- The response of `GetAllFoldersPaginated` on a snapshot of non-nil folders whose
cursor resolves to the index `s`: the page is the window from `s` to the bound of
the loop, and `Next` is read at the index where the loop stops. -/
theorem GetAllFoldersPaginated_snapshot (r : FetchFolderPaginatedRequest) (db : Db)
    (sl : Slice (Option Folder)) (fs : List Folder) (s : Nat)
    (hdb : db.FetchAllFoldersByOrgID r.OrgID = (sl, none))
    (hsnap : sl.toList = fs.map some) (hlen : (fs.length : Int) ≤ maxInt)
    (hs : getStartingAtIndex sl r.StartingAt = Except.ok ((s : Int), none)) :
    GetAllFoldersPaginated (some r) db =
      Except.ok (some ⟨
        Slice.of (((fs.drop s).take
          (min (fs.length : Int) (wrapInt ((s : Int) + r.Size)) - (s : Int)).toNat).map some),
        (fs[(max (s : Int) (min (fs.length : Int) (wrapInt ((s : Int) + r.Size)))).toNat]?).map
          (fun f => f.Id)⟩, none) := by
  have hL := Slice.len_eq sl fs hsnap
  have hlist : sl.toList.length = fs.length := by simp [hsnap]
  simp only [GetAllFoldersPaginated, hdb, hs, hL, hlist]
  rw [pageLoop_snapshot sl fs hsnap hlen _ (min_le_left _ _) fs.length s [] (by omega)]
  simp only [List.nil_append]
  generalize hbd : min (fs.length : Int) (wrapInt ((s : Int) + r.Size)) = b
  have hb : b ≤ (fs.length : Int) := by rw [← hbd]; exact min_le_left _ _
  by_cases hge : max (s : Int) b ≥ (fs.length : Int)
  · have hnone : fs[(max (s : Int) b).toNat]? = none := by
      apply List.getElem?_eq_none
      omega
    simp [hge, hnone]
  · have hnn : 0 ≤ max (s : Int) b := le_trans (Int.ofNat_nonneg s) (le_max_left _ _)
    have hlt : (max (s : Int) b).toNat < fs.length := by omega
    have hcast : max (s : Int) b = (((max (s : Int) b).toNat : Nat) : Int) := by omega
    have hidx := Slice.index_snapshot sl fs hsnap _ hlt
    rw [← hcast] at hidx
    simp [hge, hidx, deref, List.getElem?_eq_getElem hlt]

/-! ## Failures of the request, of the provider and of the cursor -/

theorem rangeLoop_no_match (c : UUID) (fs : List Folder) (hno : ∀ f ∈ fs, f.Id ≠ c) (k : Int) :
    rangeLoop c (fs.map some) k =
      Except.ok (0, some (fmtErrorf "request StartingAt does not refer to a valid Folder")) := by
  induction fs generalizing k with
  | nil => rfl
  | cons f rest ih =>
    have hf : f.Id ≠ c := hno f (List.mem_cons_self _ _)
    simp only [List.map_cons, rangeLoop, deref, hf, if_false]
    exact ih (fun g hg => hno g (List.mem_cons_of_mem _ hg)) _

/-- C4: on every snapshot of folders, the empty one included, and for every `Size`, a
present `StartingAt` that is the `Id` of no folder of the snapshot makes
`GetAllFoldersPaginated` return the invalid-cursor error with a nil response, and so
no page at all. -/
theorem C4_unknown_cursor_is_rejected (r : FetchFolderPaginatedRequest) (db : Db)
    (sl : Slice (Option Folder)) (fs : List Folder) (c : UUID)
    (hdb : db.FetchAllFoldersByOrgID r.OrgID = (sl, none))
    (hsnap : sl.toList = fs.map some)
    (hcur : r.StartingAt = some c)
    (hno : ∀ f ∈ fs, f.Id ≠ c) :
    GetAllFoldersPaginated (some r) db =
      Except.ok (none, some (fmtErrorf "request StartingAt does not refer to a valid Folder")) := by
  have hres : getStartingAtIndex sl r.StartingAt =
      Except.ok (0, some (fmtErrorf "request StartingAt does not refer to a valid Folder")) := by
    rw [hcur]
    simp only [getStartingAtIndex, hsnap]
    exact rangeLoop_no_match c fs hno 0
  simp only [GetAllFoldersPaginated, hdb, hres]

theorem C4_unknown_cursor_is_rejected_witness :
    GetAllFoldersPaginated (some ⟨⟨9⟩, 4, some ⟨7⟩⟩) (mockDb (Slice.of []) none) =
      Except.ok (none, some (fmtErrorf "request StartingAt does not refer to a valid Folder")) :=
  C4_unknown_cursor_is_rejected ⟨⟨9⟩, 4, some ⟨7⟩⟩ (mockDb (Slice.of []) none) (Slice.of []) [] ⟨7⟩
    rfl rfl rfl (fun _ h => absurd h (List.not_mem_nil _))

/-- C8: when the provider returns the error `e` for the organisation of a non-nil
request, `GetAllFoldersImproved` and `GetAllFoldersPaginated` both return `e` itself
and a nil response, whatever slice the provider returned with it and whatever `Size`
and `StartingAt` are. -/
theorem C8_provider_error_is_returned (db : Db) (orgID : UUID) (sl : Slice (Option Folder))
    (e : GoError) (hdb : db.FetchAllFoldersByOrgID orgID = (sl, some e))
    (size : Int) (startingAt : Option UUID) :
    GetAllFoldersImproved (some ⟨orgID⟩) db = Except.ok (none, some e) ∧
    GetAllFoldersPaginated (some ⟨orgID, size, startingAt⟩) db = Except.ok (none, some e) := by
  constructor
  · simp only [GetAllFoldersImproved, hdb]
  · simp only [GetAllFoldersPaginated, hdb]

theorem C8_provider_error_is_returned_witness :
    GetAllFoldersImproved (some ⟨⟨9⟩⟩) (mockDb Slice.null (some ⟨"db test error"⟩)) =
        Except.ok (none, some ⟨"db test error"⟩) ∧
    GetAllFoldersPaginated (some ⟨⟨9⟩, 2, some ⟨7⟩⟩) (mockDb Slice.null (some ⟨"db test error"⟩)) =
        Except.ok (none, some ⟨"db test error"⟩) :=
  C8_provider_error_is_returned (mockDb Slice.null (some ⟨"db test error"⟩)) ⟨9⟩ Slice.null
    ⟨"db test error"⟩ rfl 2 (some ⟨7⟩)

/-- C9: a nil request makes `GetAllFoldersImproved` and `GetAllFoldersPaginated` return
the error "request cannot be nil" and a nil response, for every provider: the
provider is not consulted. -/
theorem C9_nil_request_is_rejected (db : Db) :
    GetAllFoldersImproved none db =
        Except.ok (none, some (fmtErrorf "request cannot be nil")) ∧
    GetAllFoldersPaginated none db =
        Except.ok (none, some (fmtErrorf "request cannot be nil")) :=
  ⟨rfl, rfl⟩

theorem GetAllFoldersImproved_ok (r : FetchFolderRequest) (db : Db)
    (sl : Slice (Option Folder)) (hdb : db.FetchAllFoldersByOrgID r.OrgID = (sl, none)) :
    GetAllFoldersImproved (some r) db = Except.ok (some ⟨sl⟩, none) := by
  simp only [GetAllFoldersImproved, hdb]

/-- C10: when the provider succeeds with the slice `sl` for the organisation of a
non-nil request, `GetAllFoldersImproved` returns a nil error and a response whose
`Folders` is `sl` itself: same elements, same order, same length. -/
theorem C10_fetch_all_returns_snapshot (r : FetchFolderRequest) (db : Db)
    (sl : Slice (Option Folder)) (hdb : db.FetchAllFoldersByOrgID r.OrgID = (sl, none)) :
    GetAllFoldersImproved (some r) db = Except.ok (some ⟨sl⟩, none) := by
  simp only [GetAllFoldersImproved, hdb]

theorem C10_fetch_all_returns_snapshot_witness :
    GetAllFoldersImproved (some ⟨⟨9⟩⟩)
        (mockDb (sliceOf [mkFolder 1 "Massive", mkFolder 2 "Small"]) none) =
      Except.ok (some ⟨sliceOf [mkFolder 1 "Massive", mkFolder 2 "Small"]⟩, none) :=
  C10_fetch_all_returns_snapshot ⟨⟨9⟩⟩
    (mockDb (sliceOf [mkFolder 1 "Massive", mkFolder 2 "Small"]) none)
    (sliceOf [mkFolder 1 "Massive", mkFolder 2 "Small"]) rfl

/-! ## The window when the bound of the loop does not overflow -/

/-- A successfully resolved start index is inside the snapshot, or `0`. -/
theorem getStartingAtIndex_bounds (sl : Slice (Option Folder)) (fs : List Folder)
    (hsnap : sl.toList = fs.map some) (hlen : (fs.length : Int) ≤ maxInt) (st : Option UUID)
    (s : Int) (hs : getStartingAtIndex sl st = Except.ok (s, none)) :
    (st = none ∧ s = 0) ∨
      (∃ c, st = some c ∧ s = (firstIndex fs c : Int) ∧ firstIndex fs c < fs.length) := by
  rw [getStartingAtIndex_snapshot sl fs hsnap hlen st] at hs
  cases st with
  | none =>
    left
    simp only [Except.ok.injEq, Prod.mk.injEq] at hs
    exact ⟨rfl, hs.1.symm⟩
  | some c =>
    right
    by_cases hlt : firstIndex fs c < fs.length
    · simp only [hlt, if_true, Except.ok.injEq, Prod.mk.injEq] at hs
      exact ⟨c, rfl, hs.1.symm, hlt⟩
    · simp [hlt] at hs

theorem getStartingAtIndex_le (sl : Slice (Option Folder)) (fs : List Folder)
    (hsnap : sl.toList = fs.map some) (hlen : (fs.length : Int) ≤ maxInt) (st : Option UUID)
    (s : Nat) (hs : getStartingAtIndex sl st = Except.ok ((s : Int), none)) :
    s ≤ fs.length := by
  rcases getStartingAtIndex_bounds sl fs hsnap hlen st _ hs with ⟨_, h0⟩ | ⟨c, _, hc, hlt⟩
  · omega
  · omega

/-- With `Size ≥ 0` and `startingAtIndex + Size` within the range of `int`, the page
is the `Size` folders from the start index on (fewer at the tail of the snapshot) and
`Next` is the `Id` at index `startingAtIndex + Size`, absent when there is none. -/
theorem GetAllFoldersPaginated_no_overflow (r : FetchFolderPaginatedRequest) (db : Db)
    (sl : Slice (Option Folder)) (fs : List Folder) (s : Nat)
    (hdb : db.FetchAllFoldersByOrgID r.OrgID = (sl, none))
    (hsnap : sl.toList = fs.map some) (hlen : (fs.length : Int) ≤ maxInt)
    (hs : getStartingAtIndex sl r.StartingAt = Except.ok ((s : Int), none))
    (hsize : 0 ≤ r.Size) (hno : (s : Int) + r.Size ≤ maxInt) :
    GetAllFoldersPaginated (some r) db =
      Except.ok (some ⟨Slice.of (((fs.drop s).take r.Size.toNat).map some),
        (fs[s + r.Size.toNat]?).map (fun f => f.Id)⟩, none) := by
  rw [GetAllFoldersPaginated_snapshot r db sl fs s hdb hsnap hlen hs]
  have hw : wrapInt ((s : Int) + r.Size) = (s : Int) + r.Size :=
    wrapInt_of_range _ (by unfold minInt; omega) hno
  rw [hw]
  have htake : (fs.drop s).take (min (fs.length : Int) ((s : Int) + r.Size) - (s : Int)).toNat =
      (fs.drop s).take r.Size.toNat := by
    rw [List.take_eq_take, List.length_drop]
    omega
  have hnext : fs[(max (s : Int) (min (fs.length : Int) ((s : Int) + r.Size))).toNat]? =
      fs[s + r.Size.toNat]? := by
    have hsl := getStartingAtIndex_le sl fs hsnap hlen _ s hs
    by_cases hin : s + r.Size.toNat < fs.length
    · congr 1
      omega
    · rw [List.getElem?_eq_none (by omega), List.getElem?_eq_none (by omega)]
  rw [htake, hnext]

/-! ## The cursor returned as `Next` -/

theorem firstIndex_le_of_getElem? (fs : List Folder) (c : UUID) (e : Nat) (f : Folder)
    (hf : fs[e]? = some f) (hc : f.Id = c) : firstIndex fs c ≤ e := by
  induction fs generalizing e with
  | nil => simp at hf
  | cons g rest ih =>
    rw [firstIndex_cons]
    by_cases hg : g.Id = c
    · simp [hg]
    · cases e with
      | zero =>
        simp only [List.getElem?_cons_zero, Option.some.injEq] at hf
        exact absurd (hf ▸ hc) hg
      | succ e =>
        simp only [List.getElem?_cons_succ] at hf
        simp only [hg, if_false]
        exact Nat.succ_le_succ (ih e hf)

theorem firstIndex_of_nodup (fs : List Folder) (hnd : (fs.map (fun f => f.Id)).Nodup)
    (e : Nat) (f : Folder) (hf : fs[e]? = some f) : firstIndex fs f.Id = e := by
  induction fs generalizing e with
  | nil => simp at hf
  | cons g rest ih =>
    rw [firstIndex_cons]
    rw [List.map_cons, List.nodup_cons] at hnd
    cases e with
    | zero =>
      simp only [List.getElem?_cons_zero, Option.some.injEq] at hf
      simp [hf]
    | succ e =>
      simp only [List.getElem?_cons_succ] at hf
      have hmem : f ∈ rest := List.getElem?_mem hf
      have hg : g.Id ≠ f.Id := by
        intro h
        apply hnd.1
        rw [h]
        exact List.mem_map_of_mem _ hmem
      simp only [hg, if_false]
      rw [ih hnd.2 e hf]

theorem firstIndex_getElem? (fs : List Folder) (c : UUID) (h : firstIndex fs c < fs.length) :
    (fs[firstIndex fs c]?).map (fun f => f.Id) = some c := by
  rw [List.getElem?_eq_getElem h]
  simpa using firstIndex_get fs c h

/-- A call that returns a response has resolved its cursor. -/
theorem GetAllFoldersPaginated_ok_resolves (r : FetchFolderPaginatedRequest) (db : Db)
    (sl : Slice (Option Folder)) (fs : List Folder)
    (hdb : db.FetchAllFoldersByOrgID r.OrgID = (sl, none))
    (hsnap : sl.toList = fs.map some) (hlen : (fs.length : Int) ≤ maxInt)
    (resp : FetchFolderPaginatedResponse)
    (hcall : GetAllFoldersPaginated (some r) db = Except.ok (some resp, none)) :
    ∃ s : Nat, getStartingAtIndex sl r.StartingAt = Except.ok ((s : Int), none) := by
  have hgs := getStartingAtIndex_snapshot sl fs hsnap hlen r.StartingAt
  cases hst : r.StartingAt with
  | none =>
    rw [hst] at hgs
    exact ⟨0, hgs⟩
  | some c =>
    rw [hst] at hgs
    by_cases hlt : firstIndex fs c < fs.length
    · simp only [hlt, if_true] at hgs
      exact ⟨firstIndex fs c, hgs⟩
    · simp only [hlt, if_false] at hgs
      simp only [GetAllFoldersPaginated, hdb, hst, hgs] at hcall
      simp at hcall

/-- The cursor `c` of a folder of the snapshot resolves, to an index not after that folder. -/
theorem getStartingAtIndex_of_getElem? (sl : Slice (Option Folder)) (fs : List Folder)
    (hsnap : sl.toList = fs.map some) (hlen : (fs.length : Int) ≤ maxInt)
    (e : Nat) (c : UUID) (he : (fs[e]?).map (fun f => f.Id) = some c) :
    firstIndex fs c ≤ e ∧ firstIndex fs c < fs.length ∧
      getStartingAtIndex sl (some c) = Except.ok ((firstIndex fs c : Int), none) := by
  cases hf : fs[e]? with
  | none => simp [hf] at he
  | some f =>
    simp only [hf, Option.map_some', Option.some.injEq] at he
    have hle := firstIndex_le_of_getElem? fs c e f hf he
    have helt : e < fs.length := by
      by_contra hcon
      rw [List.getElem?_eq_none (by omega)] at hf
      exact Option.noConfusion hf
    have hlt : firstIndex fs c < fs.length := by omega
    refine ⟨hle, hlt, ?_⟩
    rw [getStartingAtIndex_snapshot sl fs hsnap hlen (some c)]
    simp [hlt]

/-- C5: when `GetAllFoldersPaginated` returns a response with a present `Next` on a
snapshot `fs` of folders, the cursor resolved to some index `s`, the page is the
folders of `fs` from `s` on, and `Next` is the `Id` of the folder of `fs` at index
`s + len(page)`, the first one after the page. A request with `StartingAt = Next` on
the same snapshot returns a response for every `Size`; its cursor resolves to an index
not after `s + len(page)`, and to `s + len(page)` itself when the `Id`s of `fs` are
pairwise distinct. -/
theorem C5_next_is_first_folder_after_page (r : FetchFolderPaginatedRequest) (db : Db)
    (sl : Slice (Option Folder)) (fs : List Folder)
    (hdb : db.FetchAllFoldersByOrgID r.OrgID = (sl, none))
    (hsnap : sl.toList = fs.map some) (hlen : (fs.length : Int) ≤ maxInt)
    (resp : FetchFolderPaginatedResponse) (next : UUID)
    (hcall : GetAllFoldersPaginated (some r) db = Except.ok (some resp, none))
    (hnext : resp.Next = some next) :
    ∃ s : Nat, getStartingAtIndex sl r.StartingAt = Except.ok ((s : Int), none) ∧
      resp.Folders = Slice.of (((fs.drop s).take resp.Folders.toList.length).map some) ∧
      (fs[s + resp.Folders.toList.length]?).map (fun f => f.Id) = some next ∧
      (∀ size : Int, ∃ resp2 : FetchFolderPaginatedResponse,
        GetAllFoldersPaginated (some ⟨r.OrgID, size, some next⟩) db =
          Except.ok (some resp2, none)) ∧
      (∃ j : Nat, j ≤ s + resp.Folders.toList.length ∧
        getStartingAtIndex sl (some next) = Except.ok ((j : Int), none)) ∧
      ((fs.map (fun f => f.Id)).Nodup →
        getStartingAtIndex sl (some next) =
          Except.ok (((s + resp.Folders.toList.length : Nat) : Int), none)) := by
  obtain ⟨s, hs⟩ := GetAllFoldersPaginated_ok_resolves r db sl fs hdb hsnap hlen resp hcall
  have hsl := getStartingAtIndex_le sl fs hsnap hlen _ s hs
  rw [GetAllFoldersPaginated_snapshot r db sl fs s hdb hsnap hlen hs] at hcall
  simp only [Except.ok.injEq, Prod.mk.injEq, Option.some.injEq, and_true] at hcall
  subst hcall
  simp only at hnext
  generalize hbd : min (fs.length : Int) (wrapInt ((s : Int) + r.Size)) = b at hnext
  have hb : b ≤ (fs.length : Int) := by rw [← hbd]; exact min_le_left _ _
  have hpage : (Slice.of (((fs.drop s).take (b - (s : Int)).toNat).map some)).toList.length =
      (b - (s : Int)).toNat := by
    simp only [Slice.toList, List.length_map, List.length_take, List.length_drop]
    omega
  have hstop : (max (s : Int) b).toNat = s + (b - (s : Int)).toNat := by omega
  rw [hstop] at hnext
  obtain ⟨hle, hlt, hres⟩ := getStartingAtIndex_of_getElem? sl fs hsnap hlen _ next hnext
  refine ⟨s, hs, ?_, ?_, ?_, ?_, ?_⟩
  · rw [hpage]
  · rw [hpage]; exact hnext
  · intro size
    exact ⟨_, GetAllFoldersPaginated_snapshot ⟨r.OrgID, size, some next⟩ db sl fs _ hdb hsnap hlen hres⟩
  · exact ⟨firstIndex fs next, by rw [hpage]; exact hle, hres⟩
  · intro hnd
    rw [hpage, hres]
    cases hf : fs[s + (b - (s : Int)).toNat]? with
    | none =>
      rw [hf] at hnext
      exact Option.noConfusion hnext
    | some f =>
      rw [hf] at hnext
      simp only [Option.map_some', Option.some.injEq] at hnext
      have := firstIndex_of_nodup fs hnd _ f hf
      rw [hnext] at this
      rw [this]

theorem C5_next_is_first_folder_after_page_witness :
    ∃ s : Nat, getStartingAtIndex (sliceOf [mkFolder 1 "1", mkFolder 2 "2", mkFolder 3 "3"]) none =
        Except.ok ((s : Int), none) ∧
      (Slice.of [some (mkFolder 1 "1"), some (mkFolder 2 "2")] : Slice (Option Folder)) =
        Slice.of ((([mkFolder 1 "1", mkFolder 2 "2", mkFolder 3 "3"].drop s).take
          (Slice.of [some (mkFolder 1 "1"), some (mkFolder 2 "2")] :
            Slice (Option Folder)).toList.length).map some) ∧
      ([mkFolder 1 "1", mkFolder 2 "2", mkFolder 3 "3"][s +
          (Slice.of [some (mkFolder 1 "1"), some (mkFolder 2 "2")] :
            Slice (Option Folder)).toList.length]?).map (fun f => f.Id) = some ⟨3⟩ ∧
      (∀ size : Int, ∃ resp2 : FetchFolderPaginatedResponse,
        GetAllFoldersPaginated (some ⟨⟨9⟩, size, some ⟨3⟩⟩)
            (mockDb (sliceOf [mkFolder 1 "1", mkFolder 2 "2", mkFolder 3 "3"]) none) =
          Except.ok (some resp2, none)) ∧
      (∃ j : Nat, j ≤ s + (Slice.of [some (mkFolder 1 "1"), some (mkFolder 2 "2")] :
            Slice (Option Folder)).toList.length ∧
        getStartingAtIndex (sliceOf [mkFolder 1 "1", mkFolder 2 "2", mkFolder 3 "3"]) (some ⟨3⟩) =
          Except.ok ((j : Int), none)) ∧
      (([mkFolder 1 "1", mkFolder 2 "2", mkFolder 3 "3"].map (fun f => f.Id)).Nodup →
        getStartingAtIndex (sliceOf [mkFolder 1 "1", mkFolder 2 "2", mkFolder 3 "3"]) (some ⟨3⟩) =
          Except.ok (((s + (Slice.of [some (mkFolder 1 "1"), some (mkFolder 2 "2")] :
            Slice (Option Folder)).toList.length : Nat) : Int), none)) :=
  C5_next_is_first_folder_after_page ⟨⟨9⟩, 2, none⟩
    (mockDb (sliceOf [mkFolder 1 "1", mkFolder 2 "2", mkFolder 3 "3"]) none)
    (sliceOf [mkFolder 1 "1", mkFolder 2 "2", mkFolder 3 "3"])
    [mkFolder 1 "1", mkFolder 2 "2", mkFolder 3 "3"] rfl rfl (by decide)
    ⟨Slice.of [some (mkFolder 1 "1"), some (mkFolder 2 "2")], some ⟨3⟩⟩ ⟨3⟩ rfl rfl

/-! ## A page of size zero -/

/-- C7: on a non-empty snapshot of folders, a request with `Size = 0` whose cursor
resolves to the index `s` (which is `0` when `StartingAt` is nil) returns a nil error
and a response with an empty, non-nil page and `Next` the `Id` of the folder at index
`s`; the request that follows the chain (`StartingAt = Next`, `Size = 0`) returns that
same response, so the cursor does not advance. (The response is a function of the
request and of what the provider returns, so the same request on the same snapshot
returns the same response as well.) -/
theorem C7_zero_size_keeps_cursor (r : FetchFolderPaginatedRequest) (db : Db)
    (sl : Slice (Option Folder)) (fs : List Folder) (s : Nat)
    (hdb : db.FetchAllFoldersByOrgID r.OrgID = (sl, none))
    (hsnap : sl.toList = fs.map some) (hlen : (fs.length : Int) ≤ maxInt)
    (hne : fs ≠ []) (hsize : r.Size = 0)
    (hs : getStartingAtIndex sl r.StartingAt = Except.ok ((s : Int), none)) :
    ∃ f : Folder, fs[s]? = some f ∧ (r.StartingAt = none → s = 0) ∧
      GetAllFoldersPaginated (some r) db =
        Except.ok (some ⟨Slice.of [], some f.Id⟩, none) ∧
      GetAllFoldersPaginated (some ⟨r.OrgID, 0, some f.Id⟩) db =
        Except.ok (some ⟨Slice.of [], some f.Id⟩, none) := by
  have hpos : 0 < fs.length := List.length_pos.mpr hne
  have hslt : s < fs.length := by
    rcases getStartingAtIndex_bounds sl fs hsnap hlen _ _ hs with ⟨_, h0⟩ | ⟨c, _, hc, hlt⟩
    · omega
    · omega
  have hzero : r.StartingAt = none → s = 0 := by
    intro hnone
    rw [hnone] at hs
    simp only [getStartingAtIndex, Except.ok.injEq, Prod.mk.injEq, and_true] at hs
    omega
  refine ⟨fs[s], List.getElem?_eq_getElem hslt, hzero, ?_, ?_⟩
  · rw [GetAllFoldersPaginated_no_overflow r db sl fs s hdb hsnap hlen hs (by omega) (by omega)]
    simp [hsize, List.getElem?_eq_getElem hslt]
  · have hcur : (fs[s]?).map (fun f => f.Id) = some fs[s].Id := by
      simp [List.getElem?_eq_getElem hslt]
    obtain ⟨_, hlt, hres⟩ := getStartingAtIndex_of_getElem? sl fs hsnap hlen s _ hcur
    rw [GetAllFoldersPaginated_no_overflow ⟨r.OrgID, 0, some fs[s].Id⟩ db sl fs _ hdb hsnap hlen
      hres (le_refl _) (by simp only [add_zero]; omega)]
    have hid := firstIndex_getElem? fs fs[s].Id hlt
    simp only [Int.toNat_zero, List.take_zero, List.map_nil, add_zero]
    rw [hid]

theorem C7_zero_size_keeps_cursor_witness :
    ∃ f : Folder, [mkFolder 1 "1", mkFolder 2 "2", mkFolder 3 "3"][0]? = some f ∧
      ((none : Option UUID) = none → 0 = 0) ∧
      GetAllFoldersPaginated (some ⟨⟨9⟩, 0, none⟩)
          (mockDb (sliceOf [mkFolder 1 "1", mkFolder 2 "2", mkFolder 3 "3"]) none) =
        Except.ok (some ⟨Slice.of [], some f.Id⟩, none) ∧
      GetAllFoldersPaginated (some ⟨⟨9⟩, 0, some f.Id⟩)
          (mockDb (sliceOf [mkFolder 1 "1", mkFolder 2 "2", mkFolder 3 "3"]) none) =
        Except.ok (some ⟨Slice.of [], some f.Id⟩, none) :=
  C7_zero_size_keeps_cursor ⟨⟨9⟩, 0, none⟩
    (mockDb (sliceOf [mkFolder 1 "1", mkFolder 2 "2", mkFolder 3 "3"]) none)
    (sliceOf [mkFolder 1 "1", mkFolder 2 "2", mkFolder 3 "3"])
    [mkFolder 1 "1", mkFolder 2 "2", mkFolder 3 "3"] 0 rfl rfl (by decide)
    (by decide) rfl rfl

/-! ## Overflow of `startingAtIndex+req.Size` -/

/-- C1: with `Size = 9223372036854775807` and `StartingAt` the `Id` of the second of
three folders, the cursor resolves to index 1 and `1 + Size` wraps to the least `int`:
`GetAllFoldersPaginated` returns an empty page, where the folders at the indices
`[1, min(3, 1 + Size))` are the second and the third folder. -/
theorem C1_overflow_empties_page :
    getStartingAtIndex (sliceOf threeFolders) (some ⟨2⟩) = Except.ok (1, none) ∧
    wrapInt (1 + 9223372036854775807) = minInt ∧
    GetAllFoldersPaginated (some ⟨⟨9⟩, 9223372036854775807, some ⟨2⟩⟩)
        (mockDb (sliceOf threeFolders) none) =
      Except.ok (some ⟨Slice.of [], some ⟨2⟩⟩, none) ∧
    (threeFolders.drop 1).take (min 3 (1 + 9223372036854775807) - 1) =
      [mkFolder 2 "2", mkFolder 3 "3"] :=
  ⟨rfl, rfl, rfl, rfl⟩

/-- C2: with `Size = 9223372036854775807` and `StartingAt` the `Id` of the second of
two folders, the cursor resolves to `s = 1` and `s + Size < L` is false for `L = 2`,
yet `GetAllFoldersPaginated` returns a present `Next`, the `Id` at index `s`. -/
theorem C2_overflow_keeps_next :
    getStartingAtIndex (sliceOf [mkFolder 1 "1", mkFolder 2 "2"]) (some ⟨2⟩) =
      Except.ok (1, none) ∧
    ¬ ((1 : Int) + 9223372036854775807 < 2) ∧
    GetAllFoldersPaginated (some ⟨⟨9⟩, 9223372036854775807, some ⟨2⟩⟩)
        (mockDb (sliceOf [mkFolder 1 "1", mkFolder 2 "2"]) none) =
      Except.ok (some ⟨Slice.of [], some ⟨2⟩⟩, none) :=
  ⟨rfl, by decide, rfl⟩

/-- C3: on the three folders of the tests, whose `Id`s are pairwise distinct, with
`Size = 9223372036854775807`, the initial cursor that is the `Id` of the second
folder, which resolves to index 1, starts a chain that never ends: after any number of
calls every page received is empty and the last response still carries a `Next`. -/
theorem C3_overflow_chain_never_ends (calls : Nat) :
    (threeFolders.map (fun f => f.Id)).Nodup ∧
    getStartingAtIndex (sliceOf threeFolders) (some ⟨2⟩) = Except.ok (1, none) ∧
    followChain (mockDb (sliceOf threeFolders) none) ⟨9⟩ 9223372036854775807 calls
        (some ⟨2⟩) =
      some (List.replicate calls (Slice.of []), false) := by
  refine ⟨by decide, rfl, ?_⟩
  induction calls with
  | zero => rfl
  | succ n ih =>
    have hcall : GetAllFoldersPaginated (some ⟨⟨9⟩, 9223372036854775807, some ⟨2⟩⟩)
        (mockDb (sliceOf threeFolders) none) =
        Except.ok (some ⟨Slice.of [], some ⟨2⟩⟩, none) := rfl
    simp only [followChain, hcall, ih, List.replicate_succ]

/-- C6: with `Size = 9223372036854775807` and `StartingAt` the `Id` of the second of
three folders (`s = 1`, `L = 3`), the page returned by `GetAllFoldersPaginated` has
length 0, where `min(Size, L - s)` is 2. -/
theorem C6_overflow_page_length :
    getStartingAtIndex (sliceOf threeFolders) (some ⟨2⟩) = Except.ok (1, none) ∧
    (∃ next, GetAllFoldersPaginated (some ⟨⟨9⟩, 9223372036854775807, some ⟨2⟩⟩)
        (mockDb (sliceOf threeFolders) none) =
      Except.ok (some ⟨Slice.of [], next⟩, none)) ∧
    (Slice.of [] : Slice (Option Folder)).toList.length = 0 ∧
    min (9223372036854775807 : Int) ((threeFolders.length : Int) - 1) = 2 :=
  ⟨rfl, ⟨_, rfl⟩, rfl, by decide⟩

/-! ## The cursor chain when the bound of the loop does not overflow -/

theorem chainCalls_last (L s n : Nat) (hend : L ≤ s + n) : chainCalls L s n = 1 := by
  unfold chainCalls
  by_cases hlt : s < L
  · simp only [hlt, if_true]
    apply Nat.div_eq_of_lt_le
    · omega
    · omega
  · simp [hlt]

theorem chainCalls_step (L s n : Nat) (hn : 1 ≤ n) (hmore : s + n < L) :
    chainCalls L s n = chainCalls L (s + n) n + 1 := by
  unfold chainCalls
  have h1 : s < L := by omega
  simp only [h1, hmore, if_true]
  have : L - s + n - 1 = (L - (s + n) + n - 1) + n := by omega
  rw [this, Nat.add_div_right _ (Nat.lt_of_lt_of_le Nat.zero_lt_one hn)]

/-- On a snapshot of folders with pairwise distinct `Id`s, with `Size ≥ 1` and
`len(folders) + Size` within the range of `int`, the cursor chain from a cursor that
resolves to `s` ends after `chainCalls` calls, and its pages put end to end are the
folders of the snapshot from `s` on. -/
theorem followChain_no_overflow (db : Db) (orgID : UUID) (size : Int)
    (sl : Slice (Option Folder)) (fs : List Folder)
    (hdb : db.FetchAllFoldersByOrgID orgID = (sl, none))
    (hsnap : sl.toList = fs.map some)
    (hnd : (fs.map (fun f => f.Id)).Nodup)
    (hsize : 1 ≤ size) (hno : (fs.length : Int) + size ≤ maxInt) :
    ∀ (k s : Nat) (cur : Option UUID), fs.length - s ≤ k →
      getStartingAtIndex sl cur = Except.ok ((s : Int), none) →
      ∃ pages : List (Slice (Option Folder)),
        followChain db orgID size (chainCalls fs.length s size.toNat) cur = some (pages, true) ∧
        pages.length = chainCalls fs.length s size.toNat ∧
        (pages.map Slice.toList).flatten = (fs.drop s).map some := by
  have hlen : (fs.length : Int) ≤ maxInt := by omega
  have hn : 1 ≤ size.toNat := by omega
  intro k
  induction k with
  | zero =>
    intro s cur hk hs
    have hsl := getStartingAtIndex_le sl fs hsnap hlen _ s hs
    have hcall := GetAllFoldersPaginated_no_overflow ⟨orgID, size, cur⟩ db sl fs s hdb hsnap hlen
      hs (by simp only; omega) (by simp only; omega)
    have hnone : fs[s + size.toNat]? = none := List.getElem?_eq_none (by omega)
    simp only [hnone, Option.map_none'] at hcall
    rw [chainCalls_last _ _ _ (by omega)]
    refine ⟨[Slice.of (((fs.drop s).take size.toNat).map some)], ?_, rfl, ?_⟩
    · simp only [followChain, hcall]
    · simp only [List.map_cons, List.map_nil, Slice.toList, List.flatten_cons, List.flatten_nil,
        List.append_nil]
      rw [List.take_of_length_le (by simp only [List.length_drop]; omega)]
  | succ k ih =>
    intro s cur hk hs
    have hsl := getStartingAtIndex_le sl fs hsnap hlen _ s hs
    have hcall := GetAllFoldersPaginated_no_overflow ⟨orgID, size, cur⟩ db sl fs s hdb hsnap hlen
      hs (by simp only; omega) (by simp only; omega)
    simp only at hcall
    by_cases hmore : s + size.toNat < fs.length
    · have hsome : fs[s + size.toNat]? = some fs[s + size.toNat] :=
        List.getElem?_eq_getElem hmore
      have hres : getStartingAtIndex sl (some fs[s + size.toNat].Id) =
          Except.ok (((s + size.toNat : Nat) : Int), none) := by
        rw [getStartingAtIndex_snapshot sl fs hsnap hlen]
        simp only
        rw [firstIndex_of_nodup fs hnd _ _ hsome]
        simp [hmore]
      obtain ⟨pages, hchain, hcount, hcat⟩ := ih (s + size.toNat) _ (by omega) hres
      rw [hsome, Option.map_some'] at hcall
      rw [chainCalls_step _ _ _ hn hmore]
      refine ⟨Slice.of (((fs.drop s).take size.toNat).map some) :: pages, ?_, ?_, ?_⟩
      · simp only [followChain, hcall, hchain]
      · simp [hcount]
      · simp only [List.map_cons, Slice.toList, List.flatten_cons, hcat]
        rw [← List.map_append, ← List.drop_drop, List.take_append_drop]
    · have hnone : fs[s + size.toNat]? = none := List.getElem?_eq_none (by omega)
      simp only [hnone, Option.map_none'] at hcall
      rw [chainCalls_last _ _ _ (by omega)]
      refine ⟨[Slice.of (((fs.drop s).take size.toNat).map some)], ?_, rfl, ?_⟩
      · simp only [followChain, hcall]
      · simp only [List.map_cons, List.map_nil, Slice.toList, List.flatten_cons,
          List.flatten_nil, List.append_nil]
        rw [List.take_of_length_le (by simp only [List.length_drop]; omega)]

/-- With `Size ≥ 0` and `startingAtIndex + Size` within the range of `int`, the call
returns a response whose page has `min(Size, L - s)` folders, the folders of the
snapshot at the indices `s, s + 1, …` in order, and whose `Next` is present exactly
when `s + Size < L`, and is then the `Id` at index `s + Size`. -/
theorem page_window_no_overflow (r : FetchFolderPaginatedRequest) (db : Db)
    (sl : Slice (Option Folder)) (fs : List Folder) (s : Nat)
    (hdb : db.FetchAllFoldersByOrgID r.OrgID = (sl, none))
    (hsnap : sl.toList = fs.map some) (hlen : (fs.length : Int) ≤ maxInt)
    (hs : getStartingAtIndex sl r.StartingAt = Except.ok ((s : Int), none))
    (hsize : 0 ≤ r.Size) (hno : (s : Int) + r.Size ≤ maxInt) :
    ∃ resp : FetchFolderPaginatedResponse,
      GetAllFoldersPaginated (some r) db = Except.ok (some resp, none) ∧
      (resp.Folders.toList.length : Int) = min r.Size ((fs.length : Int) - (s : Int)) ∧
      (∀ k : Nat, k < resp.Folders.toList.length →
        resp.Folders.toList[k]? = (fs[s + k]?).map some ∧ s + k < fs.length) ∧
      (resp.Next.isSome ↔ (s : Int) + r.Size < (fs.length : Int)) ∧
      resp.Next = (fs[s + r.Size.toNat]?).map (fun f => f.Id) := by
  have hsl := getStartingAtIndex_le sl fs hsnap hlen _ s hs
  refine ⟨_, GetAllFoldersPaginated_no_overflow r db sl fs s hdb hsnap hlen hs hsize hno,
    ?_, ?_, ?_, rfl⟩
  · simp only [Slice.toList, List.length_map, List.length_take, List.length_drop]
    omega
  · intro k hk
    simp only [Slice.toList, List.length_map, List.length_take, List.length_drop] at hk
    have hk1 : k < r.Size.toNat := by omega
    refine ⟨?_, by omega⟩
    simp only [Slice.toList, List.getElem?_map, List.getElem?_take_of_lt hk1, List.getElem?_drop]
  · by_cases hin : s + r.Size.toNat < fs.length
    · rw [List.getElem?_eq_getElem hin]
      simp only [Option.map_some', Option.isSome_some, true_iff]
      omega
    · rw [List.getElem?_eq_none (by omega)]
      simp only [Option.map_none', Option.isSome_none, Bool.false_eq_true, false_iff]
      omega

/-! ## A response or an error, never both -/

/-- C11: for every request (nil or not) and every provider, `GetAllFoldersImproved`
returns a pair that is either a nil response with a non-nil error or a non-nil
response with a nil error; every pair that `GetAllFoldersPaginated` returns is of one
of these two kinds as well, whatever the provider, `Size` and `StartingAt`; and
`GetAllFoldersPaginated` does return a pair when the slices that the provider returns
without error are snapshots of non-nil folders. -/
theorem C11_response_or_error (req1 : Option FetchFolderRequest)
    (req2 : Option FetchFolderPaginatedRequest) (db : Db) :
    (∃ resp err, GetAllFoldersImproved req1 db = Except.ok (resp, err) ∧
      ((resp = none ∧ err ≠ none) ∨ (resp ≠ none ∧ err = none))) ∧
    (∀ resp err, GetAllFoldersPaginated req2 db = Except.ok (resp, err) →
      ((resp = none ∧ err ≠ none) ∨ (resp ≠ none ∧ err = none))) ∧
    ((∀ org sl, db.FetchAllFoldersByOrgID org = (sl, none) →
        ∃ fs : List Folder, sl.toList = fs.map some ∧ (fs.length : Int) ≤ maxInt) →
      ∃ resp err, GetAllFoldersPaginated req2 db = Except.ok (resp, err)) := by
  refine ⟨?_, ?_, ?_⟩
  · cases req1 with
    | none => exact ⟨none, _, rfl, Or.inl ⟨rfl, by simp⟩⟩
    | some r =>
      rcases hf : db.FetchAllFoldersByOrgID r.OrgID with ⟨sl, e⟩
      cases e with
      | none => exact ⟨some ⟨sl⟩, none, by simp only [GetAllFoldersImproved, hf], Or.inr ⟨by simp, rfl⟩⟩
      | some e => exact ⟨none, some e, by simp only [GetAllFoldersImproved, hf], Or.inl ⟨rfl, by simp⟩⟩
  · intro resp err h
    unfold GetAllFoldersPaginated at h
    repeat' split at h
    all_goals first
      | exact Except.noConfusion h
      | (simp only [Except.ok.injEq, Prod.mk.injEq] at h
         obtain ⟨h1, h2⟩ := h
         subst h1 h2
         simp)
  · intro hwf
    cases req2 with
    | none => exact ⟨_, _, rfl⟩
    | some r =>
      rcases hf : db.FetchAllFoldersByOrgID r.OrgID with ⟨sl, e⟩
      cases e with
      | some e => exact ⟨none, some e, by simp only [GetAllFoldersPaginated, hf]⟩
      | none =>
        obtain ⟨fs, hsnap, hlen⟩ := hwf r.OrgID sl hf
        have hgs := getStartingAtIndex_snapshot sl fs hsnap hlen r.StartingAt
        cases hst : r.StartingAt with
        | none =>
          rw [hst] at hgs
          have hs : getStartingAtIndex sl r.StartingAt = Except.ok (((0 : Nat) : Int), none) := by
            rw [hst]; exact hgs
          exact ⟨_, _, GetAllFoldersPaginated_snapshot r db sl fs 0 hf hsnap hlen hs⟩
        | some c =>
          rw [hst] at hgs
          by_cases hlt : firstIndex fs c < fs.length
          · simp only [hlt, if_true] at hgs
            have hs : getStartingAtIndex sl r.StartingAt =
                Except.ok ((firstIndex fs c : Int), none) := by
              rw [hst]; exact hgs
            exact ⟨_, _, GetAllFoldersPaginated_snapshot r db sl fs _ hf hsnap hlen hs⟩
          · simp only [hlt, if_false] at hgs
            exact ⟨none, some (fmtErrorf "request StartingAt does not refer to a valid Folder"),
              by simp only [GetAllFoldersPaginated, hf, hst, hgs]⟩

theorem C11_response_or_error_witness :
    ∃ resp err, GetAllFoldersPaginated (some ⟨⟨9⟩, 2, some ⟨7⟩⟩)
        (mockDb (sliceOf threeFolders) none) = Except.ok (resp, err) :=
  (C11_response_or_error none (some ⟨⟨9⟩, 2, some ⟨7⟩⟩)
    (mockDb (sliceOf threeFolders) none)).2.2
    (fun _ sl h => ⟨threeFolders, by
      have hsl : sl = sliceOf threeFolders := by
        simp only [mockDb, Prod.mk.injEq, and_true] at h
        exact h.symm
      rw [hsl]; rfl, by decide⟩)

/-! ## Cursor resolution -/

/-- C12: on every snapshot of folders, the empty one included, `getStartingAtIndex`
returns index 0 and no error for a nil `StartingAt`; for a `StartingAt` that is the
`Id` of some folder of the snapshot it returns, with no error, the smallest index
whose folder has that `Id`. -/
theorem C12_cursor_resolves_to_first_match (sl : Slice (Option Folder)) (fs : List Folder)
    (hsnap : sl.toList = fs.map some) (hlen : (fs.length : Int) ≤ maxInt) :
    getStartingAtIndex sl none = Except.ok (0, none) ∧
    ∀ c : UUID, (∃ f ∈ fs, f.Id = c) →
      ∃ i : Nat, getStartingAtIndex sl (some c) = Except.ok ((i : Int), none) ∧
        (fs[i]?).map (fun f => f.Id) = some c ∧
        ∀ j : Nat, j < i → (fs[j]?).map (fun f => f.Id) ≠ some c := by
  refine ⟨rfl, ?_⟩
  intro c hex
  have hlt : firstIndex fs c < fs.length := (firstIndex_lt_iff fs c).mpr hex
  refine ⟨firstIndex fs c, ?_, firstIndex_getElem? fs c hlt, ?_⟩
  · rw [getStartingAtIndex_snapshot sl fs hsnap hlen (some c)]
    simp [hlt]
  · intro j hj hcon
    cases hf : fs[j]? with
    | none =>
      rw [hf] at hcon
      exact Option.noConfusion hcon
    | some f =>
      rw [hf] at hcon
      simp only [Option.map_some', Option.some.injEq] at hcon
      have := firstIndex_le_of_getElem? fs c j f hf hcon
      omega

theorem C12_cursor_resolves_to_first_match_witness :
    getStartingAtIndex (sliceOf threeFolders) none = Except.ok (0, none) ∧
    ∀ c : UUID, (∃ f ∈ threeFolders, f.Id = c) →
      ∃ i : Nat, getStartingAtIndex (sliceOf threeFolders) (some c) =
          Except.ok ((i : Int), none) ∧
        (threeFolders[i]?).map (fun f => f.Id) = some c ∧
        ∀ j : Nat, j < i → (threeFolders[j]?).map (fun f => f.Id) ≠ some c :=
  C12_cursor_resolves_to_first_match (sliceOf threeFolders) threeFolders rfl (by decide)

/-! ## The first folder of a page -/

/-- With `Size ≥ 1` and `startingAtIndex + Size` within the range of `int`, a present
`StartingAt` that resolves gives a non-empty page whose first folder has the `Id`
`StartingAt`. -/
theorem page_starts_at_cursor_no_overflow (r : FetchFolderPaginatedRequest) (db : Db)
    (sl : Slice (Option Folder)) (fs : List Folder) (s : Nat) (c : UUID)
    (hdb : db.FetchAllFoldersByOrgID r.OrgID = (sl, none))
    (hsnap : sl.toList = fs.map some) (hlen : (fs.length : Int) ≤ maxInt)
    (hcur : r.StartingAt = some c)
    (hs : getStartingAtIndex sl r.StartingAt = Except.ok ((s : Int), none))
    (hsize : 1 ≤ r.Size) (hno : (s : Int) + r.Size ≤ maxInt) :
    ∃ (f : Folder) (rest : List (Option Folder)) (next : Option UUID),
      GetAllFoldersPaginated (some r) db =
        Except.ok (some ⟨Slice.of (some f :: rest), next⟩, none) ∧ f.Id = c := by
  rcases getStartingAtIndex_bounds sl fs hsnap hlen _ _ hs with ⟨hnone, _⟩ | ⟨c2, hc2, hsc, hlt⟩
  · rw [hcur] at hnone
    exact Option.noConfusion hnone
  · rw [hcur] at hc2
    simp only [Option.some.injEq] at hc2
    subst hc2
    have hseq : s = firstIndex fs c := by omega
    have hslt : s < fs.length := by omega
    rw [GetAllFoldersPaginated_no_overflow r db sl fs s hdb hsnap hlen hs (by omega) hno]
    obtain ⟨n, hn⟩ : ∃ n : Nat, r.Size.toNat = n + 1 := ⟨r.Size.toNat - 1, by omega⟩
    rw [hn, take_drop_step fs s n hslt]
    refine ⟨fs[s], _, _, rfl, ?_⟩
    have := firstIndex_get fs c hlt
    simp only [List.get_eq_getElem] at this
    simp only [hseq]
    exact this

/-- C13: with `Size = 9223372036854775807 ≥ 1` and `StartingAt` the `Id` of the second
of three folders, the cursor resolves (to index 1), and the page returned by
`GetAllFoldersPaginated` is empty: it has no first folder with the `Id` `StartingAt`. -/
theorem C13_overflow_page_is_empty :
    getStartingAtIndex (sliceOf threeFolders) (some ⟨2⟩) = Except.ok (1, none) ∧
    (1 : Int) ≤ 9223372036854775807 ∧
    ∃ resp : FetchFolderPaginatedResponse,
      GetAllFoldersPaginated (some ⟨⟨9⟩, 9223372036854775807, some ⟨2⟩⟩)
          (mockDb (sliceOf threeFolders) none) = Except.ok (some resp, none) ∧
      resp.Folders.toList = [] :=
  ⟨rfl, by decide, ⟨Slice.of [], some ⟨2⟩⟩, rfl, rfl⟩

/-! ## The sample data provider -/

theorem fetchLoop_snapshot (orgID : UUID) (data : List Folder) (acc : List (Option Folder)) :
    fetchLoop orgID (data.map some) (Slice.of acc) =
      Except.ok (Slice.of
        (acc ++ (data.filter (fun f => decide (f.OrgId = orgID))).map some)) := by
  induction data generalizing acc with
  | nil => simp [fetchLoop]
  | cons f rest ih =>
    simp only [List.map_cons, fetchLoop, deref, Slice.append, Slice.toList]
    by_cases h : f.OrgId = orgID
    · simp only [h, if_true]
      rw [ih]
      simp [List.filter_cons, h]
    · simp only [h, if_false]
      rw [ih]
      simp [List.filter_cons, h]

theorem FetchAllFoldersByOrgID_snapshot (sampleData : Slice (Option Folder)) (data : List Folder)
    (hdata : sampleData.toList = data.map some) (orgID : UUID) :
    FetchAllFoldersByOrgID sampleData orgID =
      Except.ok (Slice.of ((data.filter (fun f => decide (f.OrgId = orgID))).map some),
        none) := by
  unfold FetchAllFoldersByOrgID
  rw [hdata, fetchLoop_snapshot orgID data []]
  rfl

/-- C15: for every organisation id and every sample data of (non-nil) folders,
`FetchAllFoldersByOrgID` returns a nil error and a non-nil slice that holds exactly
the folders of the sample data whose `OrgId` is the given id, in the order of the
sample data, each as often as it occurs there. -/
theorem C15_fetch_filters_by_org (sampleData : Slice (Option Folder)) (data : List Folder)
    (hdata : sampleData.toList = data.map some) (orgID : UUID) :
    FetchAllFoldersByOrgID sampleData orgID =
      Except.ok (Slice.of ((data.filter (fun f => decide (f.OrgId = orgID))).map some),
        none) :=
  FetchAllFoldersByOrgID_snapshot sampleData data hdata orgID

theorem C15_fetch_filters_by_org_witness :
    FetchAllFoldersByOrgID
        (sliceOf [⟨⟨1⟩, "a", ⟨7⟩⟩, ⟨⟨2⟩, "b", ⟨8⟩⟩, ⟨⟨3⟩, "c", ⟨7⟩⟩]) ⟨7⟩ =
      Except.ok (Slice.of (([⟨⟨1⟩, "a", ⟨7⟩⟩, ⟨⟨2⟩, "b", ⟨8⟩⟩, ⟨⟨3⟩, "c", ⟨7⟩⟩].filter
        (fun f => decide (f.OrgId = (⟨7⟩ : UUID)))).map some), none) :=
  C15_fetch_filters_by_org (sliceOf [⟨⟨1⟩, "a", ⟨7⟩⟩, ⟨⟨2⟩, "b", ⟨8⟩⟩, ⟨⟨3⟩, "c", ⟨7⟩⟩])
    [⟨⟨1⟩, "a", ⟨7⟩⟩, ⟨⟨2⟩, "b", ⟨8⟩⟩, ⟨⟨3⟩, "c", ⟨7⟩⟩] rfl ⟨7⟩

/-! ## Folders that share an identifier -/

/-- C16: on four folders with the identifiers 1, 2, 1, 3 and `Size = 2`, the first
call returns the first two folders and `Next = 1`, the identifier of the third folder
(index 2, the end of the page); this cursor resolves to index 0, before the end of the
page; so every call of the cursor chain returns the first two folders again, and
after any number of calls the last response still carries a `Next`. -/
theorem C16_shared_id_chain_repeats (calls : Nat) :
    ¬ (repeatedIdFolders.map (fun f => f.Id)).Nodup ∧
    GetAllFoldersPaginated (some ⟨⟨9⟩, 2, none⟩) (mockDb (sliceOf repeatedIdFolders) none) =
      Except.ok (some ⟨Slice.of [some (mkFolder 1 "A"), some (mkFolder 2 "B")], some ⟨1⟩⟩,
        none) ∧
    (repeatedIdFolders[2]?).map (fun f => f.Id) = some ⟨1⟩ ∧
    getStartingAtIndex (sliceOf repeatedIdFolders) (some ⟨1⟩) = Except.ok (0, none) ∧
    followChain (mockDb (sliceOf repeatedIdFolders) none) ⟨9⟩ 2 calls none =
      some (List.replicate calls (Slice.of [some (mkFolder 1 "A"), some (mkFolder 2 "B")]),
        false) := by
  refine ⟨by decide, rfl, rfl, rfl, ?_⟩
  have hcall : ∀ st : Option UUID, st = none ∨ st = some ⟨1⟩ →
      GetAllFoldersPaginated (some ⟨⟨9⟩, 2, st⟩) (mockDb (sliceOf repeatedIdFolders) none) =
        Except.ok (some ⟨Slice.of [some (mkFolder 1 "A"), some (mkFolder 2 "B")], some ⟨1⟩⟩,
          none) := by
    intro st hst
    rcases hst with h | h <;> subst h <;> rfl
  have hchain : ∀ (n : Nat) (st : Option UUID), st = none ∨ st = some ⟨1⟩ →
      followChain (mockDb (sliceOf repeatedIdFolders) none) ⟨9⟩ 2 n st =
        some (List.replicate n (Slice.of [some (mkFolder 1 "A"), some (mkFolder 2 "B")]),
          false) := by
    intro n
    induction n with
    | zero => intro st _; rfl
    | succ n ih =>
      intro st hst
      simp only [followChain, hcall st hst, ih (some ⟨1⟩) (Or.inr rfl), List.replicate_succ]
  exact hchain calls none (Or.inl rfl)

/-! ## Reads of the window step -/

/-- A read `s[i]` returns an element exactly when `0 ≤ i < len(s)`. -/
theorem Slice.index_ok_iff {α : Type} (sl : Slice α) (i : Int) :
    (∃ x, sl.index i = Except.ok x) ↔ 0 ≤ i ∧ i < sl.len := by
  unfold Slice.index Slice.len
  by_cases hneg : i < 0
  · simp only [hneg, if_true]
    constructor
    · rintro ⟨x, hx⟩
      exact Except.noConfusion hx
    · intro h
      omega
  · simp only [hneg, if_false]
    by_cases hlt : i.toNat < sl.toList.length
    · rw [List.getElem?_eq_getElem hlt]
      constructor
      · intro _
        omega
      · intro _
        exact ⟨_, rfl⟩
    · rw [List.getElem?_eq_none (by omega)]
      constructor
      · rintro ⟨x, hx⟩
        exact Except.noConfusion hx
      · intro h
        omega

/-- C17: on a snapshot of non-nil folders, for every `Size` (negative ones included)
and every `StartingAt`, a start index `s` that `getStartingAtIndex` returned without
error is below `L` when `StartingAt` is present, and `s ≥ L` happens only on the empty
snapshot with a nil `StartingAt`; the loop is left without a fault at an index `stop`
with `s ≤ stop`, after reading exactly the indices `s, …, stop - 1`, all below `L`; the
read for `Next` happens only for `stop < L`; and the call returns a response and a nil
error. A read outside `[0, L)` is a fault of the embedding, so none occurs. -/
theorem C17_window_step_reads_in_range (r : FetchFolderPaginatedRequest) (db : Db)
    (sl : Slice (Option Folder)) (fs : List Folder) (s : Nat)
    (hdb : db.FetchAllFoldersByOrgID r.OrgID = (sl, none))
    (hsnap : sl.toList = fs.map some) (hlen : (fs.length : Int) ≤ maxInt)
    (hs : getStartingAtIndex sl r.StartingAt = Except.ok ((s : Int), none)) :
    (r.StartingAt ≠ none → s < fs.length) ∧
    (fs.length ≤ s → fs = [] ∧ r.StartingAt = none) ∧
    (∃ stop : Nat,
      pageLoop sl (min sl.len (wrapInt ((s : Int) + r.Size))) sl.toList.length (s : Int)
          (Slice.of []) =
        Except.ok ((stop : Int), Slice.of (((fs.drop s).take (stop - s)).map some)) ∧
      s ≤ stop ∧ (s < stop → stop ≤ fs.length) ∧
      (stop < fs.length → ∃ f : Folder, sl.index (stop : Int) = Except.ok (some f))) ∧
    ∃ resp : FetchFolderPaginatedResponse,
      GetAllFoldersPaginated (some r) db = Except.ok (some resp, none) := by
  have hL := Slice.len_eq sl fs hsnap
  have hlist : sl.toList.length = fs.length := by simp [hsnap]
  refine ⟨?_, ?_, ?_, ⟨_, GetAllFoldersPaginated_snapshot r db sl fs s hdb hsnap hlen hs⟩⟩
  · intro hpres
    rcases getStartingAtIndex_bounds sl fs hsnap hlen _ _ hs with ⟨hnone, _⟩ | ⟨c, _, hc, hlt⟩
    · exact absurd hnone hpres
    · omega
  · intro hge
    rcases getStartingAtIndex_bounds sl fs hsnap hlen _ _ hs with ⟨hnone, h0⟩ | ⟨c, _, hc, hlt⟩
    · refine ⟨?_, hnone⟩
      apply List.eq_nil_of_length_eq_zero
      omega
    · omega
  · rw [hL, hlist]
    generalize hbd : min (fs.length : Int) (wrapInt ((s : Int) + r.Size)) = b
    have hb : b ≤ (fs.length : Int) := by rw [← hbd]; exact min_le_left _ _
    refine ⟨(max (s : Int) b).toNat, ?_, by omega, by omega, ?_⟩
    · rw [pageLoop_snapshot sl fs hsnap hlen b hb fs.length s [] (by omega)]
      have h1 : (((max (s : Int) b).toNat : Nat) : Int) = max (s : Int) b := by omega
      have h2 : (max (s : Int) b).toNat - s = (b - (s : Int)).toNat := by omega
      rw [h1, h2]
      rfl
    · intro hlt
      exact ⟨_, Slice.index_snapshot sl fs hsnap _ hlt⟩

theorem C17_window_step_reads_in_range_witness :
    ((some ⟨2⟩ : Option UUID) ≠ none → 1 < threeFolders.length) ∧
    (threeFolders.length ≤ 1 → threeFolders = [] ∧ (some ⟨2⟩ : Option UUID) = none) ∧
    (∃ stop : Nat,
      pageLoop (sliceOf threeFolders)
          (min (sliceOf threeFolders).len (wrapInt (((1 : Nat) : Int) + (-5))))
          (sliceOf threeFolders).toList.length ((1 : Nat) : Int) (Slice.of []) =
        Except.ok ((stop : Int), Slice.of (((threeFolders.drop 1).take (stop - 1)).map some)) ∧
      1 ≤ stop ∧ (1 < stop → stop ≤ threeFolders.length) ∧
      (stop < threeFolders.length →
        ∃ f : Folder, (sliceOf threeFolders).index (stop : Int) = Except.ok (some f))) ∧
    ∃ resp : FetchFolderPaginatedResponse,
      GetAllFoldersPaginated (some ⟨⟨9⟩, -5, some ⟨2⟩⟩) (mockDb (sliceOf threeFolders) none) =
        Except.ok (some resp, none) :=
  C17_window_step_reads_in_range ⟨⟨9⟩, -5, some ⟨2⟩⟩ (mockDb (sliceOf threeFolders) none)
    (sliceOf threeFolders) threeFolders 1 rfl rfl (by decide) rfl

/-! ## Negative and largest `Size` -/

/-- C18: on a snapshot of folders, a request with a negative `Size` (an `int`, so not
below the least `int`) whose cursor resolves to `s` is not rejected: the call returns
a nil error and a response with an empty, non-nil page and `Next` the `Id` of the
folder at index `s`, which exists unless the snapshot is empty, where `Next` is nil.
The same request with `Size = 0` returns the same. -/
theorem C18_negative_size_is_size_zero (r : FetchFolderPaginatedRequest) (db : Db)
    (sl : Slice (Option Folder)) (fs : List Folder) (s : Nat)
    (hdb : db.FetchAllFoldersByOrgID r.OrgID = (sl, none))
    (hsnap : sl.toList = fs.map some) (hlen : (fs.length : Int) ≤ maxInt)
    (hs : getStartingAtIndex sl r.StartingAt = Except.ok ((s : Int), none))
    (hneg : r.Size < 0) (hrange : minInt ≤ r.Size) :
    GetAllFoldersPaginated (some r) db =
      Except.ok (some ⟨Slice.of [], (fs[s]?).map (fun f => f.Id)⟩, none) ∧
    (s < fs.length ∨ (fs = [] ∧ (fs[s]?).map (fun f => f.Id) = none)) ∧
    GetAllFoldersPaginated (some ⟨r.OrgID, 0, r.StartingAt⟩) db =
      GetAllFoldersPaginated (some r) db := by
  have hsl := getStartingAtIndex_le sl fs hsnap hlen _ s hs
  have hw : wrapInt ((s : Int) + r.Size) = (s : Int) + r.Size :=
    wrapInt_of_range _ (by unfold minInt at *; omega) (by omega)
  have hcall : GetAllFoldersPaginated (some r) db =
      Except.ok (some ⟨Slice.of [], (fs[s]?).map (fun f => f.Id)⟩, none) := by
    rw [GetAllFoldersPaginated_snapshot r db sl fs s hdb hsnap hlen hs, hw]
    have h1 : (min (fs.length : Int) ((s : Int) + r.Size) - (s : Int)).toNat = 0 := by omega
    have h2 : (max (s : Int) (min (fs.length : Int) ((s : Int) + r.Size))).toNat = s := by omega
    rw [h1, h2]
    rfl
  refine ⟨hcall, ?_, ?_⟩
  · by_cases hlt : s < fs.length
    · exact Or.inl hlt
    · right
      have hnil : fs = [] := by
        rcases getStartingAtIndex_bounds sl fs hsnap hlen _ _ hs with ⟨_, h0⟩ | ⟨c, _, hc, hlt2⟩
        · apply List.eq_nil_of_length_eq_zero
          omega
        · omega
      subst hnil
      exact ⟨rfl, rfl⟩
  · rw [hcall]
    rw [GetAllFoldersPaginated_no_overflow ⟨r.OrgID, 0, r.StartingAt⟩ db sl fs s hdb hsnap hlen
      hs (le_refl _) (by simp only [add_zero]; omega)]
    simp

theorem C18_negative_size_is_size_zero_witness :
    GetAllFoldersPaginated (some ⟨⟨9⟩, -3, some ⟨2⟩⟩) (mockDb (sliceOf threeFolders) none) =
      Except.ok (some ⟨Slice.of [], (threeFolders[1]?).map (fun f => f.Id)⟩, none) ∧
    (1 < threeFolders.length ∨
      (threeFolders = [] ∧ (threeFolders[1]?).map (fun f => f.Id) = none)) ∧
    GetAllFoldersPaginated (some ⟨⟨9⟩, 0, some ⟨2⟩⟩) (mockDb (sliceOf threeFolders) none) =
      GetAllFoldersPaginated (some ⟨⟨9⟩, -3, some ⟨2⟩⟩) (mockDb (sliceOf threeFolders) none) :=
  C18_negative_size_is_size_zero ⟨⟨9⟩, -3, some ⟨2⟩⟩ (mockDb (sliceOf threeFolders) none)
    (sliceOf threeFolders) threeFolders 1 rfl rfl (by decide) rfl (by decide) (by decide)

/-- C19: with `Size` the largest `int` on a snapshot of folders of length `L`: when the
cursor resolves to `s ≥ 1` (so `s < L`), `s + Size` wraps to a negative `int` and the
call returns an empty page and `Next` the `Id` at index `s`, although the `L - s`
folders from `s` on remain; when it resolves to `s = 0`, `s + Size` does not wrap and
the call returns the whole snapshot and a nil `Next`. -/
theorem C19_largest_size_wraps (r : FetchFolderPaginatedRequest) (db : Db)
    (sl : Slice (Option Folder)) (fs : List Folder) (s : Nat)
    (hdb : db.FetchAllFoldersByOrgID r.OrgID = (sl, none))
    (hsnap : sl.toList = fs.map some) (hlen : (fs.length : Int) ≤ maxInt)
    (hs : getStartingAtIndex sl r.StartingAt = Except.ok ((s : Int), none))
    (hsize : r.Size = maxInt) :
    (1 ≤ s →
      wrapInt ((s : Int) + r.Size) < 0 ∧
      (∃ f : Folder, fs[s]? = some f ∧
        GetAllFoldersPaginated (some r) db =
          Except.ok (some ⟨Slice.of [], some f.Id⟩, none)) ∧
      0 < (fs.drop s).length) ∧
    (s = 0 →
      wrapInt ((s : Int) + r.Size) = maxInt ∧
      GetAllFoldersPaginated (some r) db =
        Except.ok (some ⟨Slice.of (fs.map some), none⟩, none)) := by
  constructor
  · intro hs1
    have hslt : s < fs.length := by
      rcases getStartingAtIndex_bounds sl fs hsnap hlen _ _ hs with ⟨_, h0⟩ | ⟨c, _, hc, hlt⟩
      · omega
      · omega
    have hw : wrapInt ((s : Int) + r.Size) = (s : Int) + r.Size - 18446744073709551616 := by
      apply wrapInt_overflow
      · rw [hsize]; omega
      · rw [hsize]; omega
    have hwneg : wrapInt ((s : Int) + r.Size) < 0 := by
      rw [hw, hsize]; unfold maxInt at *; omega
    refine ⟨hwneg, ⟨fs[s], List.getElem?_eq_getElem hslt, ?_⟩, by
      simp only [List.length_drop]; omega⟩
    rw [GetAllFoldersPaginated_snapshot r db sl fs s hdb hsnap hlen hs]
    have h1 : (min (fs.length : Int) (wrapInt ((s : Int) + r.Size)) - (s : Int)).toNat = 0 := by
      omega
    have h2 : (max (s : Int) (min (fs.length : Int) (wrapInt ((s : Int) + r.Size)))).toNat = s := by
      omega
    rw [h1, h2, List.getElem?_eq_getElem hslt]
    rfl
  · intro hs0
    subst hs0
    have hw : wrapInt (((0 : Nat) : Int) + r.Size) = maxInt := by
      rw [hsize]; rfl
    refine ⟨hw, ?_⟩
    rw [GetAllFoldersPaginated_no_overflow r db sl fs 0 hdb hsnap hlen hs
      (by rw [hsize]; decide) (by rw [hsize]; simp)]
    have hbig : fs.length ≤ r.Size.toNat := by rw [hsize]; omega
    rw [List.drop_zero, List.take_of_length_le hbig,
      List.getElem?_eq_none (by omega)]
    rfl

theorem C19_largest_size_wraps_witness :
    (1 ≤ 1 →
      wrapInt (((1 : Nat) : Int) + maxInt) < 0 ∧
      (∃ f : Folder, threeFolders[1]? = some f ∧
        GetAllFoldersPaginated (some ⟨⟨9⟩, maxInt, some ⟨2⟩⟩)
            (mockDb (sliceOf threeFolders) none) =
          Except.ok (some ⟨Slice.of [], some f.Id⟩, none)) ∧
      0 < (threeFolders.drop 1).length) ∧
    (1 = 0 →
      wrapInt (((1 : Nat) : Int) + maxInt) = maxInt ∧
      GetAllFoldersPaginated (some ⟨⟨9⟩, maxInt, some ⟨2⟩⟩)
          (mockDb (sliceOf threeFolders) none) =
        Except.ok (some ⟨Slice.of (threeFolders.map some), none⟩, none)) :=
  C19_largest_size_wraps ⟨⟨9⟩, maxInt, some ⟨2⟩⟩ (mockDb (sliceOf threeFolders) none)
    (sliceOf threeFolders) threeFolders 1 rfl rfl (by decide) rfl rfl

/-! ## The original `GetAllFolders` under the two meanings of a range variable -/

theorem Slice.toList_map {α β : Type} (g : α → β) (sl : Slice α) :
    (sl.map g).toList = sl.toList.map g := by
  cases sl <;> rfl

theorem copyLoop_snapshot (xs : List Folder) (acc : List Folder) :
    copyLoop (xs.map some) (Slice.of acc) = Except.ok (Slice.of (acc ++ xs)) := by
  induction xs generalizing acc with
  | nil => simp [copyLoop]
  | cons x rest ih =>
    simp only [List.map_cons, copyLoop, deref, Slice.append, Slice.toList]
    rw [ih]
    simp

theorem addrLoop_perIteration (f cells : List Folder) (fp : Slice Nat) :
    (addrLoop LoopVar.perIteration f cells fp).1 = cells ++ f ∧
    (addrLoop LoopVar.perIteration f cells fp).2.toList =
      fp.toList ++ List.range' cells.length f.length := by
  induction f generalizing cells fp with
  | nil => simp [addrLoop]
  | cons x rest ih =>
    simp only [addrLoop]
    obtain ⟨h1, h2⟩ := ih (cells ++ [x]) (fp.append cells.length)
    rw [h1, h2]
    constructor
    · simp
    · simp [Slice.append, Slice.toList, List.range'_succ]

theorem map_getElem?_range' (f : List Folder) :
    (List.range' 0 f.length).map (fun a => f[a]?) = f.map some := by
  apply List.ext_getElem?
  intro i
  by_cases hi : i < f.length
  · simp [List.getElem?_map, List.getElem?_range', hi, List.getElem?_eq_getElem hi]
  · rw [List.getElem?_eq_none (by simp; omega), List.getElem?_eq_none (by simp; omega)]

/-- With one variable `v1` for each iteration, `GetAllFolders` on sample data of
non-nil folders returns, for a non-nil request, a nil error and a response whose
folders are, by value and in order, the folders of that organisation, the same
sequence as `GetAllFoldersImproved` with a provider that answers as
`FetchAllFoldersByOrgID` does. -/
theorem GetAllFolders_perIteration (sampleData : Slice (Option Folder)) (data : List Folder)
    (hdata : sampleData.toList = data.map some) (r : FetchFolderRequest) :
    ∃ resp : FetchFolderResponse,
      GetAllFolders LoopVar.perIteration sampleData (some r) = Except.ok (some resp, none) ∧
      resp.Folders.toList =
        (data.filter (fun f => decide (f.OrgId = r.OrgID))).map some ∧
      ∀ db : Db,
        (∀ org, FetchAllFoldersByOrgID sampleData org =
          Except.ok (db.FetchAllFoldersByOrgID org)) →
        ∃ resp2 : FetchFolderResponse,
          GetAllFoldersImproved (some r) db = Except.ok (some resp2, none) ∧
          resp2.Folders.toList = resp.Folders.toList := by
  have hfetch := FetchAllFoldersByOrgID_snapshot sampleData data hdata r.OrgID
  obtain ⟨h1, h2⟩ := addrLoop_perIteration
    (data.filter (fun f => decide (f.OrgId = r.OrgID))) [] Slice.null
  rw [List.nil_append] at h1
  have h3 : (addrLoop LoopVar.perIteration
      (data.filter (fun f => decide (f.OrgId = r.OrgID))) [] Slice.null).2.toList =
      List.range' 0 (data.filter (fun f => decide (f.OrgId = r.OrgID))).length := by
    rw [h2]; rfl
  refine ⟨⟨(addrLoop LoopVar.perIteration
      (data.filter (fun f => decide (f.OrgId = r.OrgID))) [] Slice.null).2.map
    (fun a => (addrLoop LoopVar.perIteration
      (data.filter (fun f => decide (f.OrgId = r.OrgID))) [] Slice.null).1[a]?)⟩, ?_, ?_, ?_⟩
  · simp only [GetAllFolders, hfetch, Slice.toList, copyLoop_snapshot, List.nil_append]
  · rw [Slice.toList_map, h1, h3]
    exact map_getElem?_range' _
  · intro db hback
    have hdb := hback r.OrgID
    rw [hfetch] at hdb
    simp only [Except.ok.injEq] at hdb
    refine ⟨_, GetAllFoldersImproved_ok r db _ hdb.symm, ?_⟩
    rw [Slice.toList_map, h1, h3]
    exact (map_getElem?_range' _).symm

/-- With one variable `v1` for the whole loop, every pointer of the response of
`GetAllFolders` points to that variable, which holds the last folder when the
function returns: for two folders of the organisation the response holds the second
folder twice. -/
theorem GetAllFolders_perLoop_example :
    GetAllFolders LoopVar.perLoop
        (sliceOf [⟨⟨1⟩, "a", ⟨7⟩⟩, ⟨⟨2⟩, "b", ⟨8⟩⟩, ⟨⟨3⟩, "c", ⟨7⟩⟩]) (some ⟨⟨7⟩⟩) =
      Except.ok (some ⟨Slice.of [some ⟨⟨3⟩, "c", ⟨7⟩⟩, some ⟨⟨3⟩, "c", ⟨7⟩⟩]⟩, none) ∧
    FetchAllFoldersByOrgID
        (sliceOf [⟨⟨1⟩, "a", ⟨7⟩⟩, ⟨⟨2⟩, "b", ⟨8⟩⟩, ⟨⟨3⟩, "c", ⟨7⟩⟩]) ⟨7⟩ =
      Except.ok (Slice.of [some ⟨⟨1⟩, "a", ⟨7⟩⟩, some ⟨⟨3⟩, "c", ⟨7⟩⟩], none) :=
  ⟨rfl, rfl⟩

end folders
